import Mathlib

/-!
dsfile: a lock-guarded, atomically saved object file.

A shallow embedding of `dsfile.go` (`New`, `File.Save`, `File.Close`).

* The file system is a flat name space: every path names nothing, a regular
  file with its bytes, or a directory.  There are no links, so two different
  names never share contents.
* The caller's target is a `Target`: the untyped nil interface value, a
  non-pointer value, or a pointer together with the value it points to.
  Functions that write through the pointer return the new pointee.
* `Save` sends one closure to the worker and waits for it; the embedding runs
  the body of that closure once, on an open handle.
* Every call a function makes to the locker, the codec or the `os` package is
  recorded, in order, in the `events` of its result.
-/

namespace Dsfile

/-! ## Bytes, files, the `os` calls -/

abbrev Byte := Fin 256

abbrev Bytes := List Byte

/-- What a path names: a regular file with its contents, or a directory. -/
inductive Node where
  | file (data : Bytes)
  | dir
  deriving DecidableEq, Repr

/-- The file system: `node p` is what the name `p` refers to (`none`: nothing
there); `denied p` says the process may not create or replace the entry `p`
(for instance because the containing directory is not writable). -/
structure FS where
  node : String → Option Node
  denied : String → Bool

/-- The file system with nothing in it and nothing denied. -/
def FS.empty : FS :=
  { node := fun _ => none, denied := fun _ => false }

/-- Replace what the name `p` refers to. -/
def FS.set (fs : FS) (p : String) (n : Option Node) : FS :=
  { fs with node := fun q => if q = p then n else fs.node q }

/-- Mark the name `p` as one the process may not create or replace. -/
def FS.deny (fs : FS) (p : String) : FS :=
  { fs with denied := fun q => if q = p then true else fs.denied q }

/-- What `os.Open` hands to the codec: the bytes of a regular file, or, for a
directory (which opens but cannot be read), a stream whose reads fail. -/
inductive Reader where
  | data (b : Bytes)
  | failing (err : String)
  deriving DecidableEq, Repr

/-- `os.Open(p)`: fails when nothing is at `p`; never changes the file system. -/
def osOpen (fs : FS) (p : String) : Except String Reader :=
  match fs.node p with
  | none => .error "no such file or directory"
  | some (.file d) => .ok (.data d)
  | some .dir => .ok (.failing "is a directory")

/-- `os.Create(p)`: creates the file or truncates an existing one; fails, with
the file system unchanged, when the entry is denied or is a directory. -/
def osCreate (fs : FS) (p : String) : Except String FS :=
  if fs.denied p then .error "permission denied"
  else
    match fs.node p with
    | some .dir => .error "is a directory"
    | _ => .ok (fs.set p (some (.file [])))

/-- Writing `data` to the open file `p` appends to its contents. -/
def osWrite (fs : FS) (p : String) (data : Bytes) : FS :=
  match fs.node p with
  | some (.file d) => fs.set p (some (.file (d ++ data)))
  | _ => fs

/-- `os.Rename(old, new)`: on success `new` refers to what `old` referred to
and `old` is gone; on failure nothing changes.  It fails when `old` does not
exist, when the entry `new` is denied, and when `new` is a directory. -/
def osRename (fs : FS) (old new : String) : Except String FS :=
  match fs.node old with
  | none => .error "no such file or directory"
  | some n =>
    if fs.denied new then .error "permission denied"
    else
      match fs.node new with
      | some .dir => .error "file exists"
      | _ => .ok ((fs.set old none).set new (some n))

/-! ## Targets, codecs, lockers, errors -/

/-- The kinds of non-pointer values (`reflect.Kind` without `Ptr`). -/
inductive PlainKind where
  | bool | int | uint | float | complex | array | chan | func | map | slice
  | string | struct
  deriving DecidableEq, Repr

/-- A value passed as `obj interface{}`. -/
inductive Target (V : Type) where
  /-- the untyped nil interface value: `reflect.TypeOf` gives a nil `Type` -/
  | nilInterface
  /-- a non-pointer value such as `42` -/
  | plain (k : PlainKind)
  /-- a pointer, with the value it points to -/
  | pointer (v : V)

/-- The `Codec` interface.  `Decode` reads a stream into the pointee and
returns the pointee as it left it, with its error; `Encode` returns the bytes
it wrote to the writer, with its error. -/
structure Codec (V : Type) where
  Decode : Reader → V → V × Option String
  Encode : V → Bytes × Option String

/-- A `sync.Locker` over lock states `L`.  `Lock l` is `some l1` when `Lock()`
returns within the wait of one second, leaving the lock state `l1`, and `none`
when it does not; `Unlock` releases. -/
structure Locker (L : Type) where
  Lock : L → Option L
  Unlock : L → L

/-- Modelled from the spec: `NewPortLocker` is not among the source files.
The lock state is the list of bound ports; binding succeeds iff the port is
not bound, and `Lock()` on a bound port never returns. -/
def portLocker (port : Nat) : Locker (List Nat) :=
  { Lock := fun held => if port ∈ held then none else some (port :: held)
    Unlock := fun held => held.erase port }

/-- An error of the package: what failed and the underlying cause. -/
structure DsErr where
  info : String
  cause : Option String
  deriving DecidableEq, Repr

/-- Modelled from the spec: `makeErr` is not among the source files.  The
tests fix the text for a nil cause (`"dsfile: object must be a pointer"`) and
the start of the text otherwise (`"dsfile: decode error"` followed by the
cause). -/
def makeErr (err : Option String) (info : String) : DsErr :=
  { info := info, cause := err }

/-- Modelled from the spec: the `Error` method of the value `makeErr` returns
is not among the source files.  The text is the package name, what failed
and, when there is a cause, the cause on a line of its own; the tests fix the
text without a cause and the start of the text with one. -/
def DsErr.Error (e : DsErr) : String :=
  match e.cause with
  | none => "dsfile: " ++ e.info
  | some c => "dsfile: " ++ e.info ++ "\n" ++ c

/-- The calls made to the locker, the codec and the `os` package. -/
inductive Event where
  | lock
  | unlock
  | openFile (p : String)
  | decode
  | create (p : String)
  | encode
  | rename (old new : String)
  deriving DecidableEq, Repr

/-- A call either returns or panics. -/
inductive Outcome (α : Type) where
  | ret (a : α)
  | panic (msg : String)

/-! ## The handle -/

/-- The handle `*File`.  The pointee of `obj` lives with the caller and is
passed to `Save` as it is at that moment. -/
structure File (V L : Type) where
  path : String
  codec : Codec V
  locker : Locker L

/-- What `New` leaves behind when it returns: the handle and error it returns,
the pointee of the target, the file system, the lock state and the calls made. -/
structure NewResult (V L : Type) where
  file : Option (File V L)
  err : Option DsErr
  target : Target V
  fs : FS
  lock : L
  events : List Event

/-- `New(obj, path, codec, locker)` in file system `fs` and lock state `lk`. -/
def New {V L : Type} (obj : Target V) (path : String) (codec : Codec V)
    (locker : Locker L) (fs : FS) (lk : L) : Outcome (NewResult V L) :=
  match obj with
  | .nilInterface =>
    -- reflect.TypeOf(nil) is the nil Type; calling Kind() on it panics
    .panic "runtime error: invalid memory address or nil pointer dereference"
  | .plain k =>
    -- reflect.TypeOf(obj).Kind() != reflect.Ptr
    .ret { file := none, err := some (makeErr none "object must be a pointer"),
           target := .plain k, fs := fs, lock := lk, events := [] }
  | .pointer v =>
    -- try lock
    match locker.Lock lk with
    | none =>
      .ret { file := none, err := some (makeErr none "lock fail"),
             target := .pointer v, fs := fs, lock := lk, events := [.lock] }
    | some lk1 =>
      -- try load from file
      match osOpen fs path with
      | .error _ =>
        .ret { file := some { path := path, codec := codec, locker := locker },
               err := none, target := .pointer v, fs := fs, lock := lk1,
               events := [.lock, .openFile path] }
      | .ok rd =>
        match codec.Decode rd v with
        | (v1, some e) =>
          .ret { file := none, err := some (makeErr (some e) "decode error"),
                 target := .pointer v1, fs := fs, lock := lk1,
                 events := [.lock, .openFile path, .decode] }
        | (v1, none) =>
          .ret { file := some { path := path, codec := codec, locker := locker },
                 err := none, target := .pointer v1, fs := fs, lock := lk1,
                 events := [.lock, .openFile path, .decode] }

/-- The digit `d` as a character. -/
def digitChar (d : Nat) : Char := Char.ofNat (48 + d)

/-- The loop of `strconv.FormatInt` in base 10: the digits of `n`, most
significant first, in front of `acc`.  A 64-bit value has at most 20 digits. -/
def formatBits : Nat → Nat → List Char → List Char
  | 0, _, acc => acc
  | fuel + 1, n, acc =>
    if n < 10 then digitChar n :: acc
    else formatBits fuel (n / 10) (digitChar (n % 10) :: acc)

/-- `strconv.FormatInt(i, 10)`. -/
def formatInt (i : Int) : String :=
  if i < 0 then "-" ++ String.mk (formatBits 20 i.natAbs [])
  else String.mk (formatBits 20 i.natAbs [])

/-- The name of the temp file of a save that drew the random value `r`. -/
def tmpPath (path : String) (r : Nat) : String :=
  path ++ "." ++ formatInt (Int.ofNat r) ++ ".tmp"

/-- What one `Save` leaves behind: the error it returns, the file system and
the calls made. -/
structure SaveResult where
  err : Option DsErr
  fs : FS
  events : List Event

/-- `f.Save()` when the target holds `v` and `rand.Int63()` returns `r`. -/
def File.Save {V L : Type} (f : File V L) (v : V) (r : Nat) (fs : FS) : SaveResult :=
  match osCreate fs (tmpPath f.path r) with
  | .error e =>
    { err := some (makeErr (some e) "open temp file"), fs := fs,
      events := [.create (tmpPath f.path r)] }
  | .ok fs1 =>
    match f.codec.Encode v with
    | (written, some e) =>
      { err := some (makeErr (some e) "encode error"),
        fs := osWrite fs1 (tmpPath f.path r) written,
        events := [.create (tmpPath f.path r), .encode] }
    | (written, none) =>
      match osRename (osWrite fs1 (tmpPath f.path r) written) (tmpPath f.path r) f.path with
      | .error e =>
        { err := some (makeErr (some e) "rename temp file"),
          fs := osWrite fs1 (tmpPath f.path r) written,
          events := [.create (tmpPath f.path r), .encode,
                     .rename (tmpPath f.path r) f.path] }
      | .ok fs3 =>
        { err := none, fs := fs3,
          events := [.create (tmpPath f.path r), .encode,
                     .rename (tmpPath f.path r) f.path] }

/-- `f.Close()`: the worker stops and the lock is released. -/
def File.Close {V L : Type} (f : File V L) (lk : L) : L :=
  f.locker.Unlock lk

/-! ## Derived notions used to state the properties -/

/-- The text `s` starts with `p` (`strings.HasPrefix(s, p)`). -/
def StartsWith (s p : String) : Prop := ∃ rest, s = p ++ rest

/-- The directory part of a path: everything up to and including the last
separator. -/
def dirPart (p : String) : List Char :=
  (p.toList.reverse.dropWhile (fun c => c != '/')).reverse

/-! ## A codec and a target type for the examples -/

/-- The struct of `testBasics`. -/
structure Object where
  Str : String
  Int : ℤ
  Slice : List ℤ
  deriving DecidableEq, Repr

/-- The zero value of `Object`. -/
def Object.zero : Object := { Str := "", Int := 0, Slice := [] }

/-- The value saved by `testBasics`. -/
def Object.sample : Object := { Str := "foobar", Int := 42, Slice := [5, 3, 2, 1, 4] }

/-- A number as one byte, when it fits. -/
def byteOf (n : Int) : Option Byte :=
  if h : 0 ≤ n ∧ n < 256 then some ⟨n.toNat, by omega⟩ else none

/-- Write the numbers one byte each, stopping with an error at the first that
does not fit in a byte. -/
def putAll : List Int → Bytes × Option String
  | [] => ([], none)
  | n :: ns =>
    match byteOf n with
    | none => ([], some "value out of range")
    | some b => (b :: (putAll ns).1, (putAll ns).2)

/-- The fields of an `Object` in the order they are written: the string with
its length in front, the integer, the slice with its length in front. -/
def layout (o : Object) : List Int :=
  (o.Str.length : Int) :: (o.Str.toList.map (fun c => (c.toNat : Int))
    ++ o.Int :: (o.Slice.length : Int) :: o.Slice)

/-- A streaming decoder: each field is stored in the target as soon as it has
been read, and the first missing byte ends the decoding with an error. -/
def fieldDecode : Reader → Object → Object × Option String
  | .failing e, o => (o, some e)
  | .data [], o => (o, some "EOF")
  | .data (n :: rest), o =>
    if rest.length < n.val then (o, some "unexpected EOF")
    else
      match rest.drop n.val with
      | [] =>
        ({ o with Str := String.mk ((rest.take n.val).map (fun b => Char.ofNat b.val)) },
          some "unexpected EOF")
      | i :: [] =>
        ({ o with Str := String.mk ((rest.take n.val).map (fun b => Char.ofNat b.val)),
                  Int := Int.ofNat i.val },
          some "unexpected EOF")
      | i :: m :: rest3 =>
        if rest3.length < m.val then
          ({ o with Str := String.mk ((rest.take n.val).map (fun b => Char.ofNat b.val)),
                    Int := Int.ofNat i.val },
            some "unexpected EOF")
        else
          ({ Str := String.mk ((rest.take n.val).map (fun b => Char.ofNat b.val)),
             Int := Int.ofNat i.val,
             Slice := (rest3.take m.val).map (fun b => Int.ofNat b.val) },
            none)

/-- A small binary codec for `Object`. -/
def fieldCodec : Codec Object :=
  { Decode := fieldDecode, Encode := fun o => putAll (layout o) }

/-- The corruption of `testCorruptedFile`: keep the first half of the bytes. -/
def firstHalf (b : Bytes) : Bytes := b.take (b.length / 2)

/-- A handle on the path `db` with the example codec and the port lock 31000. -/
def sampleFile : File Object (List Nat) :=
  { path := "db", codec := fieldCodec, locker := portLocker 31000 }

/-- An `os` call succeeded. -/
def succeeded {ε α : Type} : Except ε α → Bool
  | .ok _ => true
  | .error _ => false

/-- A file system in which the path `db` is a directory. -/
def dirAtDb : FS := FS.empty.set "db" (some .dir)

/-- A file system in which `db` holds the first half of the encoding of the
sample value, as `testCorruptedFile` leaves it. -/
def corruptDb : FS :=
  FS.empty.set "db" (some (.file (firstHalf (fieldCodec.Encode Object.sample).1)))

/-! ## The file system calls -/

theorem set_node_ne (fs : FS) (p q : String) (n : Option Node) (h : q ≠ p) :
    (fs.set p n).node q = fs.node q := by
  simp [FS.set, h]

theorem set_node_eq (fs : FS) (p : String) (n : Option Node) :
    (fs.set p n).node p = n := by
  simp [FS.set]

theorem osCreate_node_ne {fs fs1 : FS} {p q : String}
    (hc : osCreate fs p = .ok fs1) (h : q ≠ p) : fs1.node q = fs.node q := by
  unfold osCreate at hc
  split at hc
  · cases hc
  · split at hc
    · cases hc
    · cases hc
      exact set_node_ne fs p q _ h

theorem osCreate_node_eq {fs fs1 : FS} {p : String}
    (hc : osCreate fs p = .ok fs1) : fs1.node p = some (.file []) := by
  unfold osCreate at hc
  split at hc
  · cases hc
  · split at hc
    · cases hc
    · cases hc
      exact set_node_eq fs p _

theorem osWrite_node_ne (fs : FS) (p q : String) (d : Bytes) (h : q ≠ p) :
    (osWrite fs p d).node q = fs.node q := by
  unfold osWrite
  split
  · exact set_node_ne fs p q _ h
  · rfl

theorem osWrite_node_eq {fs : FS} {p : String} {d0 : Bytes} (d : Bytes)
    (h : fs.node p = some (.file d0)) :
    (osWrite fs p d).node p = some (.file (d0 ++ d)) := by
  unfold osWrite
  rw [h]
  exact set_node_eq fs p _

theorem osRename_node_new {fs fs3 : FS} {old new : String} {n : Node}
    (hr : osRename fs old new = .ok fs3) (h : fs.node old = some n) :
    fs3.node new = some n := by
  unfold osRename at hr
  rw [h] at hr
  simp only at hr
  split at hr
  · cases hr
  · split at hr
    · cases hr
    · cases hr
      exact set_node_eq _ new _

/-! ## The name of the temp file -/

theorem tmpPath_length (path : String) (r : Nat) :
    (tmpPath path r).length = path.length + 1 + (formatInt (Int.ofNat r)).length + 4 := by
  have h1 : (".").length = 1 := rfl
  have h4 : (".tmp").length = 4 := rfl
  simp only [tmpPath, String.length_append, h1, h4]

theorem tmpPath_ne (path : String) (r : Nat) : tmpPath path r ≠ path := by
  intro h
  have hl := tmpPath_length path r
  rw [h] at hl
  omega

/-! ## Save -/

theorem Save_create_error {V L : Type} (f : File V L) (v : V) (r : Nat) (fs : FS)
    {e : String} (hc : osCreate fs (tmpPath f.path r) = .error e) :
    f.Save v r fs =
      { err := some (makeErr (some e) "open temp file"), fs := fs,
        events := [.create (tmpPath f.path r)] } := by
  simp [File.Save, hc]

theorem Save_encode_error {V L : Type} (f : File V L) (v : V) (r : Nat) (fs : FS)
    {fs1 : FS} {written : Bytes} {e : String}
    (hc : osCreate fs (tmpPath f.path r) = .ok fs1)
    (he : f.codec.Encode v = (written, some e)) :
    f.Save v r fs =
      { err := some (makeErr (some e) "encode error"),
        fs := osWrite fs1 (tmpPath f.path r) written,
        events := [.create (tmpPath f.path r), .encode] } := by
  simp [File.Save, hc, he]

theorem Save_rename_error {V L : Type} (f : File V L) (v : V) (r : Nat) (fs : FS)
    {fs1 : FS} {written : Bytes} {e : String}
    (hc : osCreate fs (tmpPath f.path r) = .ok fs1)
    (he : f.codec.Encode v = (written, none))
    (hr : osRename (osWrite fs1 (tmpPath f.path r) written) (tmpPath f.path r) f.path
      = .error e) :
    f.Save v r fs =
      { err := some (makeErr (some e) "rename temp file"),
        fs := osWrite fs1 (tmpPath f.path r) written,
        events := [.create (tmpPath f.path r), .encode,
                   .rename (tmpPath f.path r) f.path] } := by
  simp [File.Save, hc, he, hr]

theorem Save_renamed {V L : Type} (f : File V L) (v : V) (r : Nat) (fs : FS)
    {fs1 fs3 : FS} {written : Bytes}
    (hc : osCreate fs (tmpPath f.path r) = .ok fs1)
    (he : f.codec.Encode v = (written, none))
    (hr : osRename (osWrite fs1 (tmpPath f.path r) written) (tmpPath f.path r) f.path
      = .ok fs3) :
    f.Save v r fs =
      { err := none, fs := fs3,
        events := [.create (tmpPath f.path r), .encode,
                   .rename (tmpPath f.path r) f.path] } := by
  simp [File.Save, hc, he, hr]

/-- A successful save leaves at `path` a regular file holding exactly the
bytes the codec wrote. -/
theorem Save_ok_node {V L : Type} (f : File V L) (v : V) (r : Nat) (fs : FS)
    (h : (f.Save v r fs).err = none) :
    (f.codec.Encode v).2 = none ∧
      (f.Save v r fs).fs.node f.path = some (.file (f.codec.Encode v).1) := by
  cases hc : osCreate fs (tmpPath f.path r) with
  | error e => rw [Save_create_error f v r fs hc] at h; cases h
  | ok fs1 =>
    rcases he : f.codec.Encode v with ⟨written, _ | e⟩
    · cases hr : osRename (osWrite fs1 (tmpPath f.path r) written) (tmpPath f.path r) f.path with
      | error e => rw [Save_rename_error f v r fs hc he hr] at h; cases h
      | ok fs3 =>
        rw [Save_renamed f v r fs hc he hr]
        have hw := osWrite_node_eq written (osCreate_node_eq hc)
        exact ⟨rfl, by simpa using osRename_node_new hr hw⟩
    · rw [Save_encode_error f v r fs hc he] at h; cases h

/-- C1. If `Save` returns an error, the path of the handle refers to exactly
what it referred to before the call (nothing included); a rename is attempted
only after `Encode` returned without error, and it renames the temp file,
whose name is never the path itself. -/
theorem Save_failure_leaves_path {V L : Type} (f : File V L) (v : V) (r : Nat) (fs : FS) :
    ((f.Save v r fs).err ≠ none → (f.Save v r fs).fs.node f.path = fs.node f.path) ∧
    (∀ old new, Event.rename old new ∈ (f.Save v r fs).events →
      (f.codec.Encode v).2 = none ∧ old = tmpPath f.path r ∧ new = f.path ∧
      (f.Save v r fs).events = [.create old, .encode, .rename old new]) ∧
    tmpPath f.path r ≠ f.path := by
  have hne : f.path ≠ tmpPath f.path r := fun h => tmpPath_ne f.path r h.symm
  refine ⟨?_, ?_, tmpPath_ne f.path r⟩
  · intro herr
    cases hc : osCreate fs (tmpPath f.path r) with
    | error e => rw [Save_create_error f v r fs hc]
    | ok fs1 =>
      rcases he : f.codec.Encode v with ⟨written, _ | e⟩
      · cases hr : osRename (osWrite fs1 (tmpPath f.path r) written) (tmpPath f.path r) f.path with
        | error e =>
          rw [Save_rename_error f v r fs hc he hr]
          simp only
          rw [osWrite_node_ne _ _ _ _ hne, osCreate_node_ne hc hne]
        | ok fs3 =>
          rw [Save_renamed f v r fs hc he hr] at herr
          exact absurd rfl herr
      · rw [Save_encode_error f v r fs hc he]
        simp only
        rw [osWrite_node_ne _ _ _ _ hne, osCreate_node_ne hc hne]
  · intro old new hmem
    cases hc : osCreate fs (tmpPath f.path r) with
    | error e =>
      rw [Save_create_error f v r fs hc] at hmem
      simp at hmem
    | ok fs1 =>
      rcases he : f.codec.Encode v with ⟨written, _ | e⟩
      · cases hr : osRename (osWrite fs1 (tmpPath f.path r) written) (tmpPath f.path r) f.path with
        | error e =>
          rw [Save_rename_error f v r fs hc he hr] at hmem ⊢
          simp at hmem
          simp [hmem.1, hmem.2]
        | ok fs3 =>
          rw [Save_renamed f v r fs hc he hr] at hmem ⊢
          simp at hmem
          simp [hmem.1, hmem.2]
      · rw [Save_encode_error f v r fs hc he] at hmem
        simp at hmem

/-- C1, at a save whose rename fails because the path is a directory. -/
theorem Save_failure_leaves_path_witness :
    (sampleFile.Save Object.sample 7 dirAtDb).err ≠ none ∧
    Event.rename "db.7.tmp" "db" ∈ (sampleFile.Save Object.sample 7 dirAtDb).events ∧
    (sampleFile.Save Object.sample 7 dirAtDb).fs.node "db" = some .dir ∧
    (fieldCodec.Encode Object.sample).2 = none :=
  ⟨by decide, by decide,
   (Save_failure_leaves_path sampleFile Object.sample 7 dirAtDb).1 (by decide),
   ((Save_failure_leaves_path sampleFile Object.sample 7 dirAtDb).2.1 "db.7.tmp" "db"
      (by decide)).1⟩

/-- The error text always starts with the package name and what failed. -/
theorem makeErr_startsWith (c : Option String) (info : String) :
    StartsWith (makeErr c info).Error ("dsfile: " ++ info) := by
  cases c with
  | none => exact ⟨"", by simp [makeErr, DsErr.Error]⟩
  | some e => exact ⟨"\n" ++ e, by simp [makeErr, DsErr.Error, String.append_assoc]⟩

/-- C7. `Save` returns nil exactly when the temp file is created, the target
is encoded and the temp file is renamed onto the path.  Otherwise the error
names the first step that failed, and the calls made end with that step:
creating the temp file, then encoding, then renaming. -/
theorem Save_error_names_first_failed_step {V L : Type} (f : File V L) (v : V) (r : Nat)
    (fs : FS) :
    ((f.Save v r fs).err = none ↔
      ∃ fs1, osCreate fs (tmpPath f.path r) = .ok fs1 ∧ (f.codec.Encode v).2 = none ∧
        succeeded (osRename (osWrite fs1 (tmpPath f.path r) (f.codec.Encode v).1)
          (tmpPath f.path r) f.path) = true) ∧
    (∀ e, osCreate fs (tmpPath f.path r) = .error e →
      (∃ d, (f.Save v r fs).err = some d ∧ StartsWith d.Error "dsfile: open temp file") ∧
      (f.Save v r fs).events = [.create (tmpPath f.path r)]) ∧
    (∀ fs1 e, osCreate fs (tmpPath f.path r) = .ok fs1 → (f.codec.Encode v).2 = some e →
      (∃ d, (f.Save v r fs).err = some d ∧ StartsWith d.Error "dsfile: encode error") ∧
      (f.Save v r fs).events = [.create (tmpPath f.path r), .encode]) ∧
    (∀ fs1 e, osCreate fs (tmpPath f.path r) = .ok fs1 → (f.codec.Encode v).2 = none →
      osRename (osWrite fs1 (tmpPath f.path r) (f.codec.Encode v).1) (tmpPath f.path r) f.path
        = .error e →
      (∃ d, (f.Save v r fs).err = some d ∧ StartsWith d.Error "dsfile: rename temp file") ∧
      (f.Save v r fs).events =
        [.create (tmpPath f.path r), .encode, .rename (tmpPath f.path r) f.path]) := by
  refine ⟨?_, ?_, ?_, ?_⟩
  · cases hc : osCreate fs (tmpPath f.path r) with
    | error e =>
      rw [Save_create_error f v r fs hc]
      simp
    | ok fs1 =>
      rcases he : f.codec.Encode v with ⟨written, _ | e⟩
      · cases hr : osRename (osWrite fs1 (tmpPath f.path r) written) (tmpPath f.path r) f.path with
        | error e =>
          rw [Save_rename_error f v r fs hc he hr]
          simp [hr, succeeded]
        | ok fs3 =>
          rw [Save_renamed f v r fs hc he hr]
          simp [hr, succeeded]
      · rw [Save_encode_error f v r fs hc he]
        simp
  · intro e hc
    rw [Save_create_error f v r fs hc]
    exact ⟨⟨_, rfl, makeErr_startsWith _ _⟩, rfl⟩
  · intro fs1 e hc he
    have he2 : f.codec.Encode v = ((f.codec.Encode v).1, some e) := by
      rw [← he]
    rw [Save_encode_error f v r fs hc he2]
    exact ⟨⟨_, rfl, makeErr_startsWith _ _⟩, rfl⟩
  · intro fs1 e hc he hr
    have he2 : f.codec.Encode v = ((f.codec.Encode v).1, none) := by
      rw [← he]
    rw [Save_rename_error f v r fs hc he2 hr]
    exact ⟨⟨_, rfl, makeErr_startsWith _ _⟩, rfl⟩

/-- C7, at four saves: one that succeeds, one whose temp file may not be
created, one whose target does not encode, one whose path is a directory. -/
theorem Save_error_names_first_failed_step_witness :
    (sampleFile.Save Object.sample 7 FS.empty).err = none ∧
    ((∃ d, (sampleFile.Save Object.sample 7 (FS.empty.deny "db.7.tmp")).err = some d ∧
        StartsWith d.Error "dsfile: open temp file") ∧
      (sampleFile.Save Object.sample 7 (FS.empty.deny "db.7.tmp")).events
        = [.create "db.7.tmp"]) ∧
    ((∃ d, (sampleFile.Save { Object.sample with Int := 1000 } 7 FS.empty).err = some d ∧
        StartsWith d.Error "dsfile: encode error") ∧
      (sampleFile.Save { Object.sample with Int := 1000 } 7 FS.empty).events
        = [.create "db.7.tmp", .encode]) ∧
    ((∃ d, (sampleFile.Save Object.sample 7 dirAtDb).err = some d ∧
        StartsWith d.Error "dsfile: rename temp file") ∧
      (sampleFile.Save Object.sample 7 dirAtDb).events
        = [.create "db.7.tmp", .encode, .rename "db.7.tmp" "db"]) :=
  ⟨(Save_error_names_first_failed_step sampleFile Object.sample 7 FS.empty).1.mpr
      ⟨FS.empty.set "db.7.tmp" (some (.file [])), by rfl, by decide, by decide⟩,
   (Save_error_names_first_failed_step sampleFile Object.sample 7
      (FS.empty.deny "db.7.tmp")).2.1 "permission denied" (by rfl),
   (Save_error_names_first_failed_step sampleFile { Object.sample with Int := 1000 } 7
      FS.empty).2.2.1 (FS.empty.set "db.7.tmp" (some (.file []))) "value out of range"
      (by rfl) (by decide),
   (Save_error_names_first_failed_step sampleFile Object.sample 7 dirAtDb).2.2.2
      (dirAtDb.set "db.7.tmp" (some (.file []))) "file exists" (by rfl) (by decide) (by rfl)⟩

/-! ## The digits of the random value -/

theorem digitChar_eq (d : Nat) (h : d < 10) : digitChar d = Nat.digitChar d := by
  interval_cases d <;> rfl

theorem digitChar_not_sep (d : Nat) (h : d < 10) :
    digitChar d ≠ '/' ∧ digitChar d ≠ '\\' := by
  interval_cases d <;> decide

/-- With enough fuel the loop produces the decimal digits of `n`. -/
theorem formatBits_eq_toDigitsCore (f1 : Nat) :
    ∀ (f2 n : Nat) (acc : List Char), n < 10 ^ (f1 + 1) → n < f2 →
      formatBits (f1 + 1) n acc = Nat.toDigitsCore 10 f2 n acc := by
  induction f1 with
  | zero =>
    intro f2 n acc h1 h2
    obtain ⟨g, rfl⟩ : ∃ g, f2 = g + 1 := ⟨f2 - 1, by omega⟩
    have h10 : n < 10 := by simpa using h1
    have hd : n / 10 = 0 := by omega
    have hm : n % 10 = n := by omega
    simp [formatBits, Nat.toDigitsCore, h10, hd, hm, digitChar_eq n h10]
  | succ k ih =>
    intro f2 n acc h1 h2
    obtain ⟨g, rfl⟩ : ∃ g, f2 = g + 1 := ⟨f2 - 1, by omega⟩
    by_cases h10 : n < 10
    · have hd : n / 10 = 0 := by omega
      have hm : n % 10 = n := by omega
      simp [formatBits, Nat.toDigitsCore, h10, hd, hm, digitChar_eq n h10]
    · have hd : n / 10 ≠ 0 := by omega
      have hlt : n / 10 < 10 ^ (k + 1) := by
        have : 10 ^ (k + 1 + 1) = 10 * 10 ^ (k + 1) := by ring
        omega
      have hg : n / 10 < g := by omega
      have hrec := ih g (n / 10) (digitChar (n % 10) :: acc) hlt hg
      have hmod : n % 10 < 10 := Nat.mod_lt _ (by decide)
      rw [formatBits, if_neg h10, hrec, digitChar_eq _ hmod]
      conv_rhs => rw [Nat.toDigitsCore]
      simp [hd]

theorem formatInt_ofNat (r : Nat) (h : r < 2 ^ 63) :
    formatInt (Int.ofNat r) = Nat.repr r := by
  have hneg : ¬ (Int.ofNat r < 0) := by simp
  have hlt : r < 10 ^ (19 + 1) := by
    have : (2 : Nat) ^ 63 < 10 ^ (19 + 1) := by norm_num
    omega
  have hbits := formatBits_eq_toDigitsCore 19 (r + 1) r [] hlt (by omega)
  have habs : (Int.ofNat r).natAbs = r := rfl
  simp only [formatInt, if_neg hneg, habs, Nat.repr, Nat.toDigits, List.asString]
  exact congrArg String.mk hbits

theorem formatBits_mem (fuel : Nat) :
    ∀ (n : Nat) (acc : List Char) (c : Char), c ∈ formatBits fuel n acc →
      c ∈ acc ∨ ∃ d, d < 10 ∧ c = digitChar d := by
  induction fuel with
  | zero =>
    intro n acc c hc
    exact Or.inl (by simpa [formatBits] using hc)
  | succ k ih =>
    intro n acc c hc
    rw [formatBits] at hc
    split at hc
    · rename_i h10
      rcases List.mem_cons.mp hc with h | h
      · exact Or.inr ⟨n, h10, h⟩
      · exact Or.inl h
    · rcases ih _ _ c hc with h | h
      · rcases List.mem_cons.mp h with h | h
        · exact Or.inr ⟨n % 10, Nat.mod_lt _ (by decide), h⟩
        · exact Or.inl h
      · exact Or.inr h

/-- What `Save` appends to the path holds no path separator. -/
theorem suffix_no_sep (r : Nat) (c : Char)
    (hc : c ∈ ("." ++ formatInt (Int.ofNat r) ++ ".tmp").toList) : c ≠ '/' ∧ c ≠ '\\' := by
  have hneg : ¬ (Int.ofNat r < 0) := by simp
  simp only [String.toList, String.data_append, formatInt, if_neg hneg, List.mem_append] at hc
  rcases hc with (h | h) | h
  · have : c = '.' := by simpa using h
    subst this
    decide
  · rcases formatBits_mem _ _ _ c h with h | ⟨d, hd, rfl⟩
    · cases h
    · exact digitChar_not_sep d hd
  · have h2 : c = '.' ∨ c = 't' ∨ c = 'm' ∨ c = 'p' := by simpa using h
    rcases h2 with rfl | rfl | rfl | rfl <;> decide

theorem dirPart_append (p s : String) (h : ∀ c ∈ s.toList, c ≠ '/') :
    dirPart (p ++ s) = dirPart p := by
  unfold dirPart
  simp only [String.toList, String.data_append, List.reverse_append]
  rw [List.dropWhile_append_of_pos]
  intro a ha
  have := h a (by simpa [String.toList] using ha)
  simpa using this

/-- C10. For a random value `r` below `2^63` the temp file is named by the
path, a dot, the decimal digits of `r` and `.tmp`; what is appended holds no
path separator, so the temp file has the directory part of the path; and the
temp name is not the path. -/
theorem tmpPath_shape (path : String) (r : Nat) (hr : r < 2 ^ 63) :
    tmpPath path r = path ++ "." ++ Nat.repr r ++ ".tmp" ∧
    (∀ c ∈ ("." ++ Nat.repr r ++ ".tmp").toList, c ≠ '/' ∧ c ≠ '\\') ∧
    dirPart (tmpPath path r) = dirPart path ∧
    tmpPath path r ≠ path := by
  have hfmt := formatInt_ofNat r hr
  refine ⟨by rw [tmpPath, hfmt], ?_, ?_, tmpPath_ne path r⟩
  · intro c hc
    rw [← hfmt] at hc
    exact suffix_no_sep r c hc
  · have hassoc : tmpPath path r = path ++ ("." ++ formatInt (Int.ofNat r) ++ ".tmp") := by
      simp [tmpPath, String.append_assoc]
    rw [hassoc]
    exact dirPart_append _ _ (fun c hc => (suffix_no_sep r c hc).1)

/-- C10, at the path `dir/db` and the largest value `rand.Int63` can return. -/
theorem tmpPath_shape_witness :
    (9223372036854775807 : Nat) < 2 ^ 63 ∧
    tmpPath "dir/db" 9223372036854775807 = "dir/db.9223372036854775807.tmp" ∧
    dirPart (tmpPath "dir/db" 9223372036854775807) = ['d', 'i', 'r', '/'] ∧
    tmpPath "dir/db" 9223372036854775807 ≠ "dir/db" :=
  have h := tmpPath_shape "dir/db" 9223372036854775807 (by norm_num)
  ⟨by norm_num, h.1.trans (by decide), h.2.2.1.trans (by decide), h.2.2.2⟩

/-! ## New -/

theorem New_lock_fail {V L : Type} (v : V) (path : String) (codec : Codec V)
    (locker : Locker L) (fs : FS) (lk : L) (hlock : locker.Lock lk = none) :
    New (.pointer v) path codec locker fs lk =
      .ret { file := none, err := some (makeErr none "lock fail"),
             target := .pointer v, fs := fs, lock := lk, events := [.lock] } := by
  simp [New, hlock]

theorem New_open_error {V L : Type} (v : V) (path : String) (codec : Codec V)
    (locker : Locker L) (fs : FS) (lk lk1 : L) (e : String)
    (hlock : locker.Lock lk = some lk1) (hopen : osOpen fs path = .error e) :
    New (.pointer v) path codec locker fs lk =
      .ret { file := some { path := path, codec := codec, locker := locker },
             err := none, target := .pointer v, fs := fs, lock := lk1,
             events := [.lock, .openFile path] } := by
  simp [New, hlock, hopen]

theorem New_decode_error {V L : Type} (v : V) (path : String) (codec : Codec V)
    (locker : Locker L) (fs : FS) (lk lk1 : L) (rd : Reader) (v1 : V) (e : String)
    (hlock : locker.Lock lk = some lk1) (hopen : osOpen fs path = .ok rd)
    (hdec : codec.Decode rd v = (v1, some e)) :
    New (.pointer v) path codec locker fs lk =
      .ret { file := none, err := some (makeErr (some e) "decode error"),
             target := .pointer v1, fs := fs, lock := lk1,
             events := [.lock, .openFile path, .decode] } := by
  simp [New, hlock, hopen, hdec]

theorem New_loaded {V L : Type} (v : V) (path : String) (codec : Codec V)
    (locker : Locker L) (fs : FS) (lk lk1 : L) (rd : Reader) (v1 : V)
    (hlock : locker.Lock lk = some lk1) (hopen : osOpen fs path = .ok rd)
    (hdec : codec.Decode rd v = (v1, none)) :
    New (.pointer v) path codec locker fs lk =
      .ret { file := some { path := path, codec := codec, locker := locker },
             err := none, target := .pointer v1, fs := fs, lock := lk1,
             events := [.lock, .openFile path, .decode] } := by
  simp [New, hlock, hopen, hdec]

/-- A non-pointer value is refused before the locker or the file system is
touched. -/
theorem New_plain_rejected {V L : Type} (k : PlainKind) (path : String) (codec : Codec V)
    (locker : Locker L) (fs : FS) (lk : L) :
    ∃ res, New (.plain k) path codec locker fs lk = .ret res ∧ res.file = none ∧
      res.err.map DsErr.Error = some "dsfile: object must be a pointer" ∧
      res.fs = fs ∧ res.lock = lk ∧ res.events = [] :=
  ⟨_, rfl, rfl, rfl, rfl, rfl, rfl⟩

/-- C4. With the untyped nil value as target `New` does not return an error:
the call panics, for every codec, path and locker. -/
theorem New_nil_interface_panics {V L : Type} (path : String) (codec : Codec V)
    (locker : Locker L) (fs : FS) (lk : L) :
    New (Target.nilInterface : Target V) path codec locker fs lk =
      .panic "runtime error: invalid memory address or nil pointer dereference" :=
  rfl

/-- C2. If `Save` returns nil on a handle whose target holds `v`, and the
codec decodes what it encoded for `v` back to `v` in a zero-valued target,
then after `Close` a `New` on a pointer to a zero-valued target, with the same
path and codec and a lock that is acquired, returns a handle and no error and
leaves the target equal to `v`. -/
theorem Save_then_New_round_trip {V L : Type} (f : File V L) (v zero : V) (r : Nat)
    (fs : FS) (lk lk2 : L) (locker2 : Locker L)
    (hinv : ∀ w, f.codec.Encode v = (w, none) → f.codec.Decode (.data w) zero = (v, none))
    (hsave : (f.Save v r fs).err = none)
    (hlock : locker2.Lock (f.Close lk) = some lk2) :
    ∃ res, New (.pointer zero) f.path f.codec locker2 (f.Save v r fs).fs (f.Close lk)
        = .ret res ∧
      res.err = none ∧ res.file.isSome = true ∧ res.target = .pointer v := by
  obtain ⟨henc, hnode⟩ := Save_ok_node f v r fs hsave
  have hopen : osOpen (f.Save v r fs).fs f.path = .ok (.data (f.codec.Encode v).1) := by
    simp [osOpen, hnode]
  have hdec := hinv (f.codec.Encode v).1 (by rw [← henc])
  exact ⟨_, New_loaded zero f.path f.codec locker2 _ _ lk2 _ v hlock hopen hdec, rfl, rfl, rfl⟩

/-- C2, at the value of `testBasics`: saved through the example codec, closed,
and read back into a zero value under the same port lock. -/
theorem Save_then_New_round_trip_witness :
    (sampleFile.Save Object.sample 7 FS.empty).err = none ∧
    ∃ res, New (.pointer Object.zero) sampleFile.path sampleFile.codec (portLocker 31000)
        (sampleFile.Save Object.sample 7 FS.empty).fs (sampleFile.Close [31000])
        = .ret res ∧
      res.err = none ∧ res.file.isSome = true ∧ res.target = .pointer Object.sample :=
  ⟨by decide,
   Save_then_New_round_trip sampleFile Object.sample Object.zero 7 FS.empty [31000]
     [31000] (portLocker 31000)
     (fun w hw => by
        have hw2 : w = (fieldCodec.Encode Object.sample).1 := by
          have := congrArg Prod.fst hw
          exact this.symm
        subst hw2
        decide)
     (by decide) (by decide)⟩

/-- C3. When the lock was acquired and decoding the existing file fails, `New`
returns the error with the lock still held: the port stays bound, a further
`Lock` does not return, and `Unlock` was never called. -/
theorem New_decode_failure_holds_lock :
    ∃ res, New (.pointer Object.sample) "db" fieldCodec (portLocker 31000) corruptDb []
        = .ret res ∧
      res.file = none ∧
      res.err = some (makeErr (some "unexpected EOF") "decode error") ∧
      res.lock = [31000] ∧ (portLocker 31000).Lock res.lock = none ∧
      Event.unlock ∉ res.events :=
  ⟨_, New_decode_error Object.sample "db" fieldCodec (portLocker 31000) corruptDb []
        [31000] (.data (firstHalf (fieldCodec.Encode Object.sample).1))
        Object.sample "unexpected EOF" (by decide) (by rfl) (by decide),
    rfl, rfl, rfl, by decide, by decide⟩

/-- C5, as stated, fails: the file holds the first half of a valid encoding,
`New` returns no handle and a decode error, and the target, zero-valued
before the call, holds the string that was read before the bytes ran out. -/
theorem New_decode_failure_changes_target :
    ∃ res, New (.pointer Object.zero) "db" fieldCodec (portLocker 31000) corruptDb []
        = .ret res ∧
      corruptDb.node "db" = some (.file [6, 102, 111, 111, 98, 97, 114]) ∧
      res.file = none ∧
      res.err = some (makeErr (some "unexpected EOF") "decode error") ∧
      StartsWith (makeErr (some "unexpected EOF") "decode error").Error
        "dsfile: decode error" ∧
      res.target = .pointer { Str := "foobar", Int := 0, Slice := [] } ∧
      ({ Str := "foobar", Int := 0, Slice := [] } : Object) ≠ Object.zero :=
  ⟨_, New_decode_error Object.zero "db" fieldCodec (portLocker 31000) corruptDb []
        [31000] (.data (firstHalf (fieldCodec.Encode Object.sample).1))
        { Str := "foobar", Int := 0, Slice := [] } "unexpected EOF"
        (by decide) (by rfl) (by decide),
    by decide, rfl, rfl, makeErr_startsWith _ _, rfl, by decide⟩

/-- C5, amended. When the lock is acquired and the codec fails to decode what
is at the path, `New` returns no handle and an error whose text starts with
`dsfile: decode error`, the file system is unchanged, and the target holds
what the failed `Decode` left in it: the value from before the call whenever
that `Decode` does not write to the target. -/
theorem New_failed_decode_result {V L : Type} (v v1 : V) (path : String) (codec : Codec V)
    (locker : Locker L) (fs : FS) (lk lk1 : L) (rd : Reader) (e : String)
    (hlock : locker.Lock lk = some lk1) (hopen : osOpen fs path = .ok rd)
    (hdec : codec.Decode rd v = (v1, some e)) :
    ∃ res, New (.pointer v) path codec locker fs lk = .ret res ∧
      res.file = none ∧
      (∃ d, res.err = some d ∧ StartsWith d.Error "dsfile: decode error") ∧
      res.target = .pointer v1 ∧ (v1 = v → res.target = .pointer v) ∧
      res.fs = fs :=
  ⟨_, New_decode_error v path codec locker fs lk lk1 rd v1 e hlock hopen hdec, rfl,
    ⟨_, rfl, makeErr_startsWith _ _⟩, rfl, fun h => by rw [h], rfl⟩

/-- C5, amended, at a file with no bytes: the example codec fails before it
stores anything, and the target keeps the sample value. -/
theorem New_failed_decode_result_witness :
    ∃ res, New (.pointer Object.sample) "db" fieldCodec (portLocker 31000)
        (FS.empty.set "db" (some (.file []))) [] = .ret res ∧
      res.file = none ∧
      (∃ d, res.err = some d ∧ StartsWith d.Error "dsfile: decode error") ∧
      res.target = .pointer Object.sample ∧
      (Object.sample = Object.sample → res.target = .pointer Object.sample) ∧
      res.fs = FS.empty.set "db" (some (.file [])) :=
  New_failed_decode_result Object.sample Object.sample "db" fieldCodec (portLocker 31000)
    (FS.empty.set "db" (some (.file []))) [] [31000] (.data []) "EOF"
    (by decide) (by rfl) (by decide)

/-- C6. When `Lock` does not return within the wait, `New` returns no handle
and the error `dsfile: lock fail`; the only call made is the one to the
locker, so the path was neither opened nor decoded, and the target, the file
system and the lock state are as before. -/
theorem New_lock_timeout {V L : Type} (v : V) (path : String) (codec : Codec V)
    (locker : Locker L) (fs : FS) (lk : L) (hlock : locker.Lock lk = none) :
    ∃ res, New (.pointer v) path codec locker fs lk = .ret res ∧
      res.file = none ∧ res.err.map DsErr.Error = some "dsfile: lock fail" ∧
      res.events = [.lock] ∧ Event.openFile path ∉ res.events ∧
      Event.decode ∉ res.events ∧
      res.target = .pointer v ∧ res.fs = fs ∧ res.lock = lk :=
  ⟨_, New_lock_fail v path codec locker fs lk hlock, rfl, rfl, rfl, by simp, by simp,
    rfl, rfl, rfl⟩

/-- C6, at a port another open handle has bound and a corrupted file. -/
theorem New_lock_timeout_witness :
    (portLocker 31000).Lock [31000] = none ∧
    ∃ res, New (.pointer Object.zero) "db" fieldCodec (portLocker 31000) corruptDb [31000]
        = .ret res ∧
      res.file = none ∧ res.err.map DsErr.Error = some "dsfile: lock fail" ∧
      res.events = [.lock] ∧ Event.openFile "db" ∉ res.events ∧
      Event.decode ∉ res.events ∧
      res.target = .pointer Object.zero ∧ res.fs = corruptDb ∧ res.lock = [31000] :=
  ⟨by decide,
   New_lock_timeout Object.zero "db" fieldCodec (portLocker 31000) corruptDb [31000]
     (by decide)⟩

/-- C8. When the lock is acquired and nothing is at the path, `New` returns a
handle on that path and codec and no error; it opens the path and stops there,
without a call to `Decode`; the target and the file system are as before, so
there is still nothing at the path; and a `Save` on the handle that returns
nil puts there a file with the bytes the codec wrote. -/
theorem New_without_file {V L : Type} (v : V) (path : String) (codec : Codec V)
    (locker : Locker L) (fs : FS) (lk lk1 : L)
    (hlock : locker.Lock lk = some lk1) (hnone : fs.node path = none) :
    ∃ res, New (.pointer v) path codec locker fs lk = .ret res ∧
      res.err = none ∧
      res.events = [.lock, .openFile path] ∧ Event.decode ∉ res.events ∧
      res.target = .pointer v ∧ res.fs = fs ∧ res.fs.node path = none ∧
      res.lock = lk1 ∧
      ∃ f, res.file = some f ∧ f.path = path ∧ f.codec = codec ∧
        ∀ v2 r, (f.Save v2 r res.fs).err = none →
          (f.Save v2 r res.fs).fs.node path = some (.file (codec.Encode v2).1) := by
  have hopen : osOpen fs path = .error "no such file or directory" := by
    simp [osOpen, hnone]
  refine ⟨_, New_open_error v path codec locker fs lk lk1 _ hlock hopen, rfl, rfl, by simp,
    rfl, rfl, hnone, rfl, _, rfl, rfl, rfl, ?_⟩
  intro v2 r hs
  exact (Save_ok_node _ v2 r fs hs).2

/-- C8, at an empty file system and a free port. -/
theorem New_without_file_witness :
    ∃ res, New (.pointer Object.sample) "db" fieldCodec (portLocker 31000) FS.empty []
        = .ret res ∧
      res.err = none ∧
      res.events = [.lock, .openFile "db"] ∧ Event.decode ∉ res.events ∧
      res.target = .pointer Object.sample ∧ res.fs = FS.empty ∧
      res.fs.node "db" = none ∧ res.lock = [31000] ∧
      ∃ f, res.file = some f ∧ f.path = "db" ∧ f.codec = fieldCodec ∧
        ∀ v2 r, (f.Save v2 r res.fs).err = none →
          (f.Save v2 r res.fs).fs.node "db" = some (.file (fieldCodec.Encode v2).1) :=
  New_without_file Object.sample "db" fieldCodec (portLocker 31000) FS.empty [] [31000]
    (by decide) (by rfl)

end Dsfile
